import Mathlib

/-!
# Verification of the NEAR Protocol balance checker core

This file gives a shallow embedding, in Lean 4, of the core logic of the
balance-checker page component (`app/page.tsx`): account-identifier
validation, the balance conversion/formatting pipeline, the error
classifier of the `catch` block, and the request-lifecycle bookkeeping
(abort controllers, the timeout race, unmount cleanup), together with
theorems settling the specification's claims about them.

Numbers that the JavaScript code holds as `BigInt` (arbitrary precision)
are embedded as `Nat`; decimal strings exchanged with the RPC layer are
modelled by an explicit decimal printer/parser pair.
-/

namespace NearBalanceChecker

/-! ## Decimal strings

`natDecStr` models `BigInt.prototype.toString` (base 10) and `parseDec`
models `BigInt(string)` on strings of decimal digits (the JavaScript
constructor throws on other inputs, modelled by `none`). -/

/-- The decimal digit character for a value `d < 10` (code point `48 + d`). -/
def decChar (d : Nat) : Char := Char.ofNat (d + 48)

/-- Fuel-driven decimal rendering of a natural number, most significant digit
first.  The fuel only needs to exceed the number itself. -/
def natDecAux : Nat → Nat → List Char
  | 0, _ => []
  | fuel + 1, n =>
    if n < 10 then [decChar n]
    else natDecAux fuel (n / 10) ++ [decChar (n % 10)]

/-- Decimal rendering of a natural number, modelling `BigInt.toString`. -/
def natDecStr (n : Nat) : String := ⟨natDecAux (n + 1) n⟩

/-- Numeric value of a decimal digit character, `none` for anything else. -/
def decDigitVal (c : Char) : Option Nat :=
  if 48 ≤ c.toNat ∧ c.toNat ≤ 57 then some (c.toNat - 48) else none

/-- Left-to-right accumulation of a decimal digit list. -/
def parseDecAux : List Char → Nat → Option Nat
  | [], acc => some acc
  | c :: cs, acc =>
    match decDigitVal c with
    | some d => parseDecAux cs (acc * 10 + d)
    | none => none

/-- `parseDec s` models `BigInt(s)` for a non-empty all-digit string `s`,
returning `none` where the JavaScript constructor would throw. -/
def parseDec (s : String) : Option Nat :=
  match s.data with
  | [] => none
  | c :: cs => parseDecAux (c :: cs) 0

/-! ## List-based string primitives

`String.trim`, `String.splitOn` and `String.toLower` from the Lean core
library recurse on byte positions, which the kernel cannot evaluate, so the
embedding uses the equivalent list-based functions below (modelling the
JavaScript `trim`, `split('.')` and `toLowerCase`). -/

/-- The whitespace characters removed by trimming. -/
def isWhitespaceChar (c : Char) : Bool :=
  c == ' ' || c == '\t' || c == '\n' || c == '\r'

/-- `String.prototype.trim`: drop whitespace from both ends. -/
def strTrim (s : String) : String :=
  ⟨((s.data.dropWhile isWhitespaceChar).reverse.dropWhile isWhitespaceChar).reverse⟩

/-- Split a character list at every occurrence of `sep` (JavaScript
`split`, so leading, trailing and repeated separators yield empty groups). -/
def splitOnChar (sep : Char) : List Char → List (List Char)
  | [] => [[]]
  | c :: cs =>
    if c = sep then [] :: splitOnChar sep cs
    else
      match splitOnChar sep cs with
      | [] => [[c]]
      | g :: gs => (c :: g) :: gs

/-- Split a string at every dot. -/
def strSplitOnDot (s : String) : List String :=
  (splitOnChar '.' s.data).map fun g => ⟨g⟩

/-- ASCII lowercasing of a string, character by character. -/
def strToLower (s : String) : String :=
  ⟨s.data.map Char.toLower⟩

/-! ## Identifier validator

Embeds `validateAccountId` and the three regular expressions of
`app/page.tsx`.  Each regex is embedded as the decidable predicate it
denotes on strings; whitespace trimming is `String.trim` (the JavaScript
`String.prototype.trim`). -/

/-- Character class `[0-9a-f]` under the regex `i` flag. -/
def isHexCharCI (c : Char) : Bool :=
  decide (('0' ≤ c ∧ c ≤ '9') ∨ ('a' ≤ c ∧ c ≤ 'f') ∨ ('A' ≤ c ∧ c ≤ 'F'))

/-- Character class `[a-z0-9_-]` under the regex `i` flag. -/
def isLabelCharCI (c : Char) : Bool :=
  decide (('a' ≤ c ∧ c ≤ 'z') ∨ ('A' ≤ c ∧ c ≤ 'Z') ∨ ('0' ≤ c ∧ c ≤ '9') ∨
    c = '_' ∨ c = '-')

/-- `IMPLICIT_ADDRESS_REGEX.test`, the regex being `[0-9a-f]` 64 times,
anchored, with the `i` flag: exactly 64 case-insensitive hex characters. -/
def implicitAddressTest (s : String) : Bool :=
  decide (s.data.length = 64) && s.data.all isHexCharCI

/-- `NAMED_ADDRESS_REGEX.test`, the regex being one or more `[a-z0-9_-]`
runs joined by dots, then a dot and `near` or `testnet`, anchored, with the
`i` flag.  Because the separator `.` cannot occur inside a run, a string
matches exactly when splitting at every dot yields at least two parts, all
parts before the last are non-empty runs of label characters, and the last
part is `near` or `testnet` up to ASCII case. -/
def namedAddressTest (s : String) : Bool :=
  decide (2 ≤ (strSplitOnDot s).length) &&
    (strSplitOnDot s).dropLast.all (fun p => !(p == "") && p.data.all isLabelCharCI) &&
    (strToLower ((strSplitOnDot s).getLastD "") == "near" ||
      strToLower ((strSplitOnDot s).getLastD "") == "testnet")

/-- `ETHEREUM_LIKE_REGEX.test`, the regex being `0x` then `[0-9a-f]` 40
times, anchored, with the `i` flag (so the `x` may also be uppercase). -/
def ethereumLikeTest (s : String) : Bool :=
  match s.data with
  | '0' :: x :: rest =>
    (x == 'x' || x == 'X') && decide (rest.length = 40) && rest.all isHexCharCI
  | _ => false

/-- Message returned for an empty (after trimming) input. -/
def emptyInputMsg : String := "Please enter a NEAR account ID."

/-- Message returned when no accepted shape matches. -/
def invalidInputMsg : String :=
  "Please enter a valid NEAR account ID (implicit address, named address like alice.near, or Ethereum-like address like 0x...)."

/-- `validateAccountId` from `app/page.tsx`: `none` means valid, `some m`
carries the error message `m`. -/
def validateAccountId (id : String) : Option String :=
  if strTrim id = "" then some emptyInputMsg
  else if implicitAddressTest (strTrim id) then none
  else if namedAddressTest (strTrim id) then none
  else if ethereumLikeTest (strTrim id) then none
  else some invalidInputMsg

/-! Claim-side shapes, written from the specification's description of the
three accepted identifier forms. -/

/-- A hexadecimal character, in either case. -/
def HexCharShape (c : Char) : Prop :=
  ('0' ≤ c ∧ c ≤ '9') ∨ ('a' ≤ c ∧ c ≤ 'f') ∨ ('A' ≤ c ∧ c ≤ 'F')

/-- A label character: letter, digit, hyphen or underscore (case-insensitive). -/
def LabelCharShape (c : Char) : Prop :=
  ('a' ≤ c ∧ c ≤ 'z') ∨ ('A' ≤ c ∧ c ≤ 'Z') ∨ ('0' ≤ c ∧ c ≤ '9') ∨
    c = '_' ∨ c = '-'

/-- Shape (a): exactly 64 hexadecimal characters. -/
def ImplicitShape (s : String) : Prop :=
  s.data.length = 64 ∧ ∀ c ∈ s.data, HexCharShape c

/-- Shape (b): one or more dot-separated labels followed by a final label
that is a recognized network suffix (`near` or `testnet`, up to case). -/
def NamedShape (s : String) : Prop :=
  ∃ front lastLabel, strSplitOnDot s = front ++ [lastLabel] ∧ front ≠ [] ∧
    (∀ p ∈ front, p ≠ "" ∧ ∀ c ∈ p.data, LabelCharShape c) ∧
    (strToLower lastLabel = "near" ∨ strToLower lastLabel = "testnet")

/-- Shape (c): `0x` (case-insensitively) followed by exactly 40 hex characters. -/
def EthereumLikeShape (s : String) : Prop :=
  ∃ rest : List Char, (s.data = '0' :: 'x' :: rest ∨ s.data = '0' :: 'X' :: rest) ∧
    rest.length = 40 ∧ ∀ c ∈ rest, HexCharShape c

instance instDecHexCharShape (c : Char) : Decidable (HexCharShape c) := by
  unfold HexCharShape
  infer_instance

instance instDecLabelCharShape (c : Char) : Decidable (LabelCharShape c) := by
  unfold LabelCharShape
  infer_instance

instance instDecImplicitShape (s : String) : Decidable (ImplicitShape s) := by
  unfold ImplicitShape
  infer_instance

/-! ## Balance conversion

The tail of `handleFetchBalance`'s `fetchPromise`: `BigInt` parsing of the
two raw yoctoNEAR amounts, exact integer totalling, and formatting. -/

/-- The `BalanceData` interface of `app/page.tsx`. -/
structure BalanceData where
  available : String
  staked : String
  total : String
deriving DecidableEq, Repr

/-- Request timeout in milliseconds (30 seconds), `REQUEST_TIMEOUT`. -/
def REQUEST_TIMEOUT : Nat := 30000

/-- Left-pad a digit string with zeros up to width `n`. -/
def padZeros (n : Nat) (s : String) : String :=
  ⟨List.replicate (n - s.data.length) '0' ++ s.data⟩

/-- Modelled from the spec: `utils.format.formatNearAmount` of the
`near-api-js` library is an external dependency whose source is not part of
this repository.  Per the spec it converts a raw smallest-unit (yoctoNEAR,
`10 ^ 24` per NEAR) integer amount into the human-readable unit rendered
with a fixed number of fractional digits (`fracDigits`, 4 in this system). -/
def formatNearAmount (amount : Nat) (fracDigits : Nat) : String :=
  natDecStr (amount / 10 ^ 24) ++ "." ++
    padZeros fracDigits (natDecStr (amount % 10 ^ 24 / 10 ^ (24 - fracDigits)))

/-- The conversion step of `handleFetchBalance`: parse the raw
`availableBalance` and `stakedBalance` strings with `BigInt`, compute
`totalYocto` as their exact integer sum, and format all three values with
4 fractional digits.  `none` models `BigInt` throwing on a non-numeric
string. -/
def fetchBalanceConvert (availableBalance stakedBalance : String) :
    Option BalanceData :=
  match parseDec availableBalance, parseDec stakedBalance with
  | some a, some s =>
    some { available := formatNearAmount a 4,
           staked := formatNearAmount s 4,
           total := formatNearAmount (a + s) 4 }
  | _, _ => none

/-! ## Error classification

The `catch` block of `handleFetchBalance`.  `ErrorWithType` is the
interface of the same name in `app/page.tsx` (a JavaScript `Error` always
carries a `message` string; `type` is optional). -/

/-- The `ErrorWithType` interface. -/
structure ErrorWithType where
  type : Option String
  message : String
deriving DecidableEq, Repr

/-- Does `hay` start with `needle`? -/
def charsHavePre : List Char → List Char → Bool
  | [], _ => true
  | _ :: _, [] => false
  | n :: ns, h :: hs => n == h && charsHavePre ns hs

/-- Does `hay` contain `needle` as a contiguous run? -/
def charsContain (needle : List Char) : List Char → Bool
  | [] => needle.isEmpty
  | c :: cs => charsHavePre needle (c :: cs) || charsContain needle cs

/-- `String.prototype.includes`. -/
def strIncludes (hay needle : String) : Bool := charsContain needle.data hay.data

/-- The message the internal timeout promise rejects with. -/
def timeoutInternalMsg : String := "Request timed out. Please try again."

/-- The user-facing timeout message. -/
def timeoutUserMsg : String :=
  "Request timed out. The network may be slow. Please try again."

/-- The user-facing account-not-found message. -/
def accountMissingMsg (trimmedAccountId : String) : String :=
  "Account \"" ++ trimmedAccountId ++ "\" does not exist on NEAR mainnet."

/-- The user-facing all-providers-failed message. -/
def providersFailedMsg : String :=
  "All RPC providers failed. The NEAR network may be experiencing issues. Please try again later."

/-- The user-facing network-error message. -/
def networkErrorMsg : String :=
  "Network error. Please check your connection and try again."

/-- The generic fallback message (the initial value of `errorMessage`). -/
def genericErrorMsg : String := "An error occurred while fetching the balance."

/-- The error-to-message mapping of `handleFetchBalance`'s `catch` block
(its branches in source order). -/
def classifyError (trimmedAccountId : String) (error : ErrorWithType) : String :=
  if error.message = timeoutInternalMsg then
    timeoutUserMsg
  else if error.type = some "AccountDoesNotExist" then
    accountMissingMsg trimmedAccountId
  else if strIncludes error.message "Exceeded 3 providers" ||
      strIncludes error.message "Exceeded" then
    providersFailedMsg
  else if strIncludes error.message "network" || strIncludes error.message "fetch" then
    networkErrorMsg
  else if error.message ≠ "" then
    "Error: " ++ error.message
  else
    genericErrorMsg

/-! ## The sub-query join

`Promise.all([account.getAccountBalance(), account.getActiveDelegatedStakeBalance()])`
followed by the conversion step.  Only the fields the page reads are
modelled; the sub-query outcomes are inputs (`Except.error` models a
rejected promise). -/

/-- Result of `getAccountBalance` (only the field the page reads). -/
structure AccountBalance where
  available : String
deriving DecidableEq, Repr

/-- Result of `getActiveDelegatedStakeBalance` (only the field the page reads). -/
structure ActiveDelegatedStakeBalance where
  total : String
deriving DecidableEq, Repr

/-- The body of `fetchPromise` after the account handle is resolved: join
both sub-queries (`Promise.all`), then convert.  A rejection of either
sub-query rejects the whole body with that sub-query's error. -/
def fetchPromiseBody (liquidBalanceData : Except ErrorWithType AccountBalance)
    (stakedBalanceData : Except ErrorWithType ActiveDelegatedStakeBalance) :
    Except ErrorWithType (Option BalanceData) :=
  match liquidBalanceData, stakedBalanceData with
  | .error e, _ => .error e
  | .ok _, .error e => .error e
  | .ok l, .ok s => .ok (fetchBalanceConvert l.available s.total)

/-! ## Request lifecycle

The component's state and the request bookkeeping of `handleFetchBalance`:
the `useState` fields, the `abortControllerRef`, the `Promise.race` against
the timeout, and the unmount cleanup effect.  The single-threaded event
loop is modelled by events delivered to a step function: a submission runs
synchronously up to the `await` of the race (validation, supersession of
the prior controller, state resets, request and timer creation); the race
of a request settles at most once, either with the `fetchPromise` outcome
or with the timer firing, after which the handler's success/catch/finally
logic runs; the unmount cleanup calls `abort()` on the current controller.
An aborted signal stays aborted forever (`aborted` only grows), and a
late outcome for an already-settled race is a no-op, as `Promise.race`
ignores promises that lose the race. -/

/-- One request of `handleFetchBalance`: its abort-controller identity, the
closure's `trimmedAccountId`, whether its race has settled, and whether its
timeout timer is still pending. -/
structure FetchRequest where
  id : Nat
  trimmedAccountId : String
  settled : Bool
  timerActive : Bool
deriving DecidableEq, Repr

/-- The component state plus request bookkeeping.  `current` is
`abortControllerRef.current` (by controller identity), `aborted` the set of
controllers whose `abort()` has been called, `nextId` a supply of fresh
controller identities. -/
structure AppState where
  loading : Bool
  error : Option String
  balanceData : Option BalanceData
  fetchedAccountId : Option String
  current : Option Nat
  aborted : List Nat
  nextId : Nat
  requests : List FetchRequest
deriving DecidableEq, Repr

/-- The state right after mounting. -/
def AppState.init : AppState :=
  { loading := false, error := none, balanceData := none,
    fetchedAccountId := none, current := none, aborted := [],
    nextId := 0, requests := [] }

/-- Outcome of a request's `fetchPromise`. -/
inductive FetchOutcome where
  | success (b : BalanceData)
  | failure (e : ErrorWithType)
deriving DecidableEq, Repr

/-- The externally-driven events: a form submission, the race of request
`r` settling with the fetch outcome, the race settling with the timer
firing, and component teardown. -/
inductive Event where
  | submit (raw : String)
  | settleFetch (r : Nat) (o : FetchOutcome)
  | settleTimeout (r : Nat)
  | unmount
deriving DecidableEq, Repr

/-- Mark the race of request `r` as settled with its timer cleared
(`clearTimeout` runs on the success path, in `catch` and in `finally`). -/
def settleReq (rs : List FetchRequest) (r : Nat) : List FetchRequest :=
  rs.map fun q =>
    if q.id = r then { q with settled := true, timerActive := false } else q

/-- Submission: the synchronous part of `handleFetchBalance` up to the
`await` of the race.  Validation failure short-circuits with just the error
message; otherwise the prior controller (if any) is aborted, a fresh
controller is installed, the four state fields are reset, and the request
with its timeout timer starts. -/
def submitStep (st : AppState) (raw : String) : AppState :=
  match validateAccountId raw with
  | some msg => { st with error := some msg }
  | none =>
    { st with
      aborted := (match st.current with
        | some p => p :: st.aborted
        | none => st.aborted),
      current := some st.nextId,
      nextId := st.nextId + 1,
      loading := true, error := none, balanceData := none,
      fetchedAccountId := none,
      requests := st.requests ++ [⟨st.nextId, strTrim raw, false, true⟩] }

/-- The race of request `r` settles with the `fetchPromise` outcome: the
timer is cleared, then — only if the controller was not aborted — the
success path sets the data or the `catch` block classifies the error, and
`finally` clears the loading flag.  A late outcome for an already-settled
race is a no-op. -/
def settleFetchStep (st : AppState) (r : Nat) (o : FetchOutcome) : AppState :=
  match st.requests.find? (fun q => q.id == r && !q.settled) with
  | none => st
  | some q =>
    if r ∈ st.aborted then
      { st with requests := settleReq st.requests r }
    else
      match o with
      | .success b =>
        { st with
          requests := settleReq st.requests r
          loading := false
          balanceData := some b
          fetchedAccountId := some q.trimmedAccountId }
      | .failure e =>
        { st with
          requests := settleReq st.requests r
          loading := false
          error := some (classifyError q.trimmedAccountId e) }

/-- The race of request `r` settles with the timer firing: the rejection
carries the internal timeout message, which the `catch` block classifies —
unless the controller was aborted, in which case nothing visible happens. -/
def settleTimeoutStep (st : AppState) (r : Nat) : AppState :=
  match st.requests.find? (fun q => q.id == r && !q.settled) with
  | none => st
  | some q =>
    if r ∈ st.aborted then
      { st with requests := settleReq st.requests r }
    else
      { st with
        requests := settleReq st.requests r
        loading := false
        error := some (classifyError q.trimmedAccountId ⟨none, timeoutInternalMsg⟩) }

/-- The `useEffect` cleanup: abort the current controller, if any. -/
def unmountStep (st : AppState) : AppState :=
  match st.current with
  | some p => { st with aborted := p :: st.aborted }
  | none => st

/-- One step of the event loop. -/
def stepEvent (st : AppState) : Event → AppState
  | .submit raw => submitStep st raw
  | .settleFetch r o => settleFetchStep st r o
  | .settleTimeout r => settleTimeoutStep st r
  | .unmount => unmountStep st

/-- The state reached from mounting after a sequence of events. -/
def runEvents (evs : List Event) : AppState := evs.foldl stepEvent AppState.init

/-- The externally-visible part of the state: exactly what the rendering
layer reads. -/
structure Visible where
  loading : Bool
  error : Option String
  balanceData : Option BalanceData
  fetchedAccountId : Option String
deriving DecidableEq, Repr

/-- Projection to the externally-visible state. -/
def visible (st : AppState) : Visible :=
  ⟨st.loading, st.error, st.balanceData, st.fetchedAccountId⟩

/-- Bookkeeping invariant of reachable states. -/
structure WF (st : AppState) : Prop where
  ids_lt : ∀ q ∈ st.requests, q.id < st.nextId
  aborted_lt : ∀ a ∈ st.aborted, a < st.nextId
  current_lt : ∀ r, st.current = some r → r < st.nextId
  ids_inj : ∀ p ∈ st.requests, ∀ q ∈ st.requests, p.id = q.id → p = q
  live_current : ∀ q ∈ st.requests, q.settled = false → q.id ∉ st.aborted →
    st.current = some q.id
  settled_timer : ∀ q ∈ st.requests, q.settled = true → q.timerActive = false

/-- A live request: pending (race not settled) and not cancelled. -/
def LiveRequest (st : AppState) (q : FetchRequest) : Prop :=
  q ∈ st.requests ∧ q.settled = false ∧ q.id ∉ st.aborted

/-- At most one request is live. -/
def AtMostOneLive (st : AppState) : Prop :=
  ∀ p q, LiveRequest st p → LiveRequest st q → p = q


/-! ## Theorems -/

theorem decDigitVal_decChar {d : Nat} (hd : d < 10) :
    decDigitVal (decChar d) = some d := by
  interval_cases d <;> decide

theorem parseDecAux_append (xs ys : List Char) (acc : Nat) :
    parseDecAux (xs ++ ys) acc =
      match parseDecAux xs acc with
      | some a => parseDecAux ys a
      | none => none := by
  induction xs generalizing acc with
  | nil => rfl
  | cons c cs ih =>
    simp only [List.cons_append, parseDecAux]
    cases decDigitVal c with
    | none => rfl
    | some d => exact ih _

theorem natDecAux_ne_nil {fuel n : Nat} (h : n < fuel) :
    natDecAux fuel n ≠ [] := by
  cases fuel with
  | zero => omega
  | succ f =>
    simp only [natDecAux]
    split
    · simp
    · simp

theorem parseDecAux_natDecAux {fuel : Nat} :
    ∀ {n : Nat}, n < fuel → ∀ acc,
      parseDecAux (natDecAux fuel n) acc =
        some (acc * 10 ^ (natDecAux fuel n).length + n) := by
  induction fuel with
  | zero => intro n h; omega
  | succ f ih =>
    intro n h acc
    simp only [natDecAux]
    split
    · rename_i hlt
      simp [parseDecAux, decDigitVal_decChar hlt]
    · rename_i hge
      push_neg at hge
      have hfuel : n / 10 < f := by
        have h1 : n / 10 < n := Nat.div_lt_self (by omega) (by omega)
        omega
      rw [parseDecAux_append]
      rw [ih hfuel acc]
      have hne := natDecAux_ne_nil hfuel
      simp [parseDecAux, decDigitVal_decChar (Nat.mod_lt n (by omega))]
      rw [pow_succ]
      have hdm : 10 * (n / 10) + n % 10 = n := Nat.div_add_mod n 10
      calc (acc * 10 ^ (natDecAux f (n / 10)).length + n / 10) * 10 + n % 10
          = acc * (10 ^ (natDecAux f (n / 10)).length * 10) +
              (10 * (n / 10) + n % 10) := by ring
        _ = acc * (10 ^ (natDecAux f (n / 10)).length * 10) + n := by rw [hdm]

/-- Round trip: parsing the printed decimal form of `n` recovers `n`
exactly, for every natural number — the arbitrary-precision guarantee. -/
theorem parseDec_natDecStr (n : Nat) : parseDec (natDecStr n) = some n := by
  have h : n < n + 1 := Nat.lt_succ_self n
  have hne := natDecAux_ne_nil h
  have hval := parseDecAux_natDecAux h 0
  simp only [natDecStr, parseDec]
  cases hcase : natDecAux (n + 1) n with
  | nil => exact absurd hcase hne
  | cons c cs =>
    rw [hcase] at hval
    simpa using hval

theorem implicitAddressTest_iff (s : String) :
    implicitAddressTest s = true ↔ ImplicitShape s := by
  simp [implicitAddressTest, ImplicitShape, isHexCharCI, HexCharShape,
    List.all_eq_true]

theorem namedAddressTest_iff (s : String) :
    namedAddressTest s = true ↔ NamedShape s := by
  constructor
  · intro h
    simp only [namedAddressTest, Bool.and_eq_true, decide_eq_true_eq,
      Bool.or_eq_true, beq_iff_eq, List.all_eq_true, Bool.not_eq_true'] at h
    obtain ⟨⟨hlen, hfront⟩, hlast⟩ := h
    have hne : strSplitOnDot s ≠ [] := by
      intro hh
      rw [hh] at hlen
      simp at hlen
    refine ⟨(strSplitOnDot s).dropLast, (strSplitOnDot s).getLast hne, ?_, ?_, ?_, ?_⟩
    · exact (List.dropLast_append_getLast hne).symm
    · intro hh
      have : (strSplitOnDot s).dropLast.length = 0 := by rw [hh]; rfl
      rw [List.length_dropLast] at this
      omega
    · intro p hp
      have := hfront p hp
      refine ⟨by simpa using this.1, ?_⟩
      intro c hc
      have := this.2 c hc
      simpa [isLabelCharCI, LabelCharShape] using this
    · have hx : (strSplitOnDot s).getLastD "" = (strSplitOnDot s).getLast hne := by
        rw [List.getLastD_eq_getLast?, List.getLast?_eq_getLast _ hne]
        rfl
      rw [← hx]
      exact hlast
  · rintro ⟨front, lastLabel, hsplit, hfront_ne, hlabels, hsuffix⟩
    simp only [namedAddressTest, hsplit, Bool.and_eq_true, decide_eq_true_eq,
      Bool.or_eq_true, beq_iff_eq, List.all_eq_true, Bool.not_eq_true']
    refine ⟨⟨?_, ?_⟩, ?_⟩
    · have hfl : front.length ≠ 0 := fun hh => hfront_ne (List.length_eq_zero.mp hh)
      simp [List.length_append]
      omega
    · intro p hp
      rw [List.dropLast_concat] at hp
      obtain ⟨hp1, hp2⟩ := hlabels p hp
      refine ⟨by simpa using hp1, ?_⟩
      intro c hc
      simpa [isLabelCharCI, LabelCharShape] using hp2 c hc
    · rw [List.getLastD_concat]
      exact hsuffix

theorem ethereumLikeTest_iff (s : String) :
    ethereumLikeTest s = true ↔ EthereumLikeShape s := by
  constructor
  · intro h
    unfold ethereumLikeTest at h
    split at h
    · rename_i rest heq
      simp only [Bool.and_eq_true, Bool.or_eq_true, beq_iff_eq,
        decide_eq_true_eq, List.all_eq_true] at h
      obtain ⟨⟨hx, hlen⟩, hhex⟩ := h
      refine ⟨rest, ?_, hlen, ?_⟩
      · cases hx with
        | inl h1 => exact Or.inl (by rw [heq, h1])
        | inr h1 => exact Or.inr (by rw [heq, h1])
      · intro c hc
        simpa [isHexCharCI, HexCharShape] using hhex c hc
    · exact absurd h (by simp)
  · rintro ⟨rest, hdata, hlen, hhex⟩
    have hhex' : rest.all isHexCharCI = true := by
      rw [List.all_eq_true]
      intro c hc
      simpa [isHexCharCI, HexCharShape] using hhex c hc
    cases hdata with
    | inl h1 => unfold ethereumLikeTest; rw [h1]; simp [hlen, hhex']
    | inr h1 => unfold ethereumLikeTest; rw [h1]; simp [hlen, hhex']

theorem wf_init : WF AppState.init := by
  constructor <;> simp [AppState.init]

theorem wf_of_settle (st st2 : AppState) (r : Nat)
    (hreq : st2.requests = settleReq st.requests r)
    (hab : st2.aborted = st.aborted)
    (hcur : st2.current = st.current)
    (hnext : st2.nextId = st.nextId)
    (h : WF st) : WF st2 := by
  constructor
  · intro q hq
    rw [hreq, settleReq, List.mem_map] at hq
    obtain ⟨p, hp, rfl⟩ := hq
    rw [hnext]
    by_cases hid : p.id = r
    · simpa [hid] using h.ids_lt p hp
    · simpa [hid] using h.ids_lt p hp
  · intro a ha
    rw [hab] at ha
    rw [hnext]
    exact h.aborted_lt a ha
  · intro x hx
    rw [hcur] at hx
    rw [hnext]
    exact h.current_lt x hx
  · intro p hp q hq hpq
    rw [hreq, settleReq, List.mem_map] at hp hq
    obtain ⟨p0, hp0, rfl⟩ := hp
    obtain ⟨q0, hq0, rfl⟩ := hq
    have hid : p0.id = q0.id := by
      by_cases h1 : p0.id = r <;> by_cases h2 : q0.id = r <;>
        simp [h1, h2] at hpq ⊢ <;> omega
    rw [h.ids_inj p0 hp0 q0 hq0 hid]
  · intro q hq hqs hqa
    rw [hreq, settleReq, List.mem_map] at hq
    obtain ⟨p, hp, rfl⟩ := hq
    by_cases hid : p.id = r
    · simp [hid] at hqs
    · simp [hid] at hqs hqa ⊢
      rw [hcur]
      rw [hab] at hqa
      exact h.live_current p hp hqs hqa
  · intro q hq hqs
    rw [hreq, settleReq, List.mem_map] at hq
    obtain ⟨p, hp, rfl⟩ := hq
    by_cases hid : p.id = r
    · simp [hid]
    · simp [hid] at hqs ⊢
      exact h.settled_timer p hp hqs

theorem wf_of_submit (st st2 : AppState) (tid : String)
    (hreq : st2.requests = st.requests ++ [⟨st.nextId, tid, false, true⟩])
    (hab : (st.current = none ∧ st2.aborted = st.aborted) ∨
      (∃ p, st.current = some p ∧ st2.aborted = p :: st.aborted))
    (hcur : st2.current = some st.nextId)
    (hnext : st2.nextId = st.nextId + 1)
    (h : WF st) : WF st2 := by
  constructor
  · intro q hq
    rw [hreq] at hq
    rw [hnext]
    rcases List.mem_append.mp hq with hq | hq
    · have := h.ids_lt q hq
      omega
    · rw [List.mem_singleton] at hq
      subst hq
      simp
  · intro a ha
    rw [hnext]
    rcases hab with ⟨hc, habe⟩ | ⟨p, hc, habe⟩
    · rw [habe] at ha
      have := h.aborted_lt a ha
      omega
    · rw [habe] at ha
      rcases List.mem_cons.mp ha with ha | ha
      · subst ha
        have := h.current_lt a hc
        omega
      · have := h.aborted_lt a ha
        omega
  · intro x hx
    rw [hcur] at hx
    rw [hnext]
    injection hx with hx
    omega
  · intro p hp q hq hpq
    rw [hreq] at hp hq
    rcases List.mem_append.mp hp with hp | hp <;>
      rcases List.mem_append.mp hq with hq | hq
    · exact h.ids_inj p hp q hq hpq
    · rw [List.mem_singleton] at hq
      subst hq
      have := h.ids_lt p hp
      simp at hpq
      omega
    · rw [List.mem_singleton] at hp
      subst hp
      have := h.ids_lt q hq
      simp at hpq
      omega
    · rw [List.mem_singleton] at hp hq
      rw [hp, hq]
  · intro q hq hqs hqa
    rw [hreq] at hq
    rcases List.mem_append.mp hq with hq | hq
    · exfalso
      rcases hab with ⟨hc, habe⟩ | ⟨p, hc, habe⟩
      · rw [habe] at hqa
        have := h.live_current q hq hqs hqa
        rw [hc] at this
        exact Option.noConfusion this
      · rw [habe] at hqa
        rw [List.mem_cons, not_or] at hqa
        obtain ⟨h1, h2⟩ := hqa
        have := h.live_current q hq hqs h2
        rw [hc] at this
        injection this with this
        exact h1 this.symm
    · rw [List.mem_singleton] at hq
      subst hq
      rw [hcur]
  · intro q hq hqs
    rw [hreq] at hq
    rcases List.mem_append.mp hq with hq | hq
    · exact h.settled_timer q hq hqs
    · rw [List.mem_singleton] at hq
      subst hq
      simp at hqs

theorem wf_submitStep (st : AppState) (raw : String) (h : WF st) :
    WF (submitStep st raw) := by
  cases hv : validateAccountId raw with
  | some msg =>
    simp only [submitStep, hv]
    exact ⟨h.ids_lt, h.aborted_lt, h.current_lt, h.ids_inj, h.live_current,
      h.settled_timer⟩
  | none =>
    cases hc : st.current with
    | none =>
      simp only [submitStep, hv, hc]
      exact wf_of_submit st _ (strTrim raw) rfl (Or.inl ⟨hc, rfl⟩) rfl rfl h
    | some p =>
      simp only [submitStep, hv, hc]
      exact wf_of_submit st _ (strTrim raw) rfl (Or.inr ⟨p, hc, rfl⟩) rfl rfl h

theorem wf_settleFetchStep (st : AppState) (r : Nat) (o : FetchOutcome)
    (h : WF st) : WF (settleFetchStep st r o) := by
  unfold settleFetchStep
  split
  · exact h
  · split
    · exact wf_of_settle st _ r rfl rfl rfl rfl h
    · split
      · exact wf_of_settle st _ r rfl rfl rfl rfl h
      · exact wf_of_settle st _ r rfl rfl rfl rfl h

theorem wf_settleTimeoutStep (st : AppState) (r : Nat) (h : WF st) :
    WF (settleTimeoutStep st r) := by
  unfold settleTimeoutStep
  split
  · exact h
  · split
    · exact wf_of_settle st _ r rfl rfl rfl rfl h
    · exact wf_of_settle st _ r rfl rfl rfl rfl h

theorem wf_unmountStep (st : AppState) (h : WF st) : WF (unmountStep st) := by
  unfold unmountStep
  cases hc : st.current with
  | none => exact h
  | some p =>
    constructor
    · exact h.ids_lt
    · intro a ha
      rcases List.mem_cons.mp ha with ha | ha
      · subst ha
        exact h.current_lt a hc
      · exact h.aborted_lt a ha
    · intro x hx
      injection hx with hx
      subst hx
      exact h.current_lt p hc
    · exact h.ids_inj
    · intro q hq hqs hqa
      rw [List.mem_cons, not_or] at hqa
      have hlive := h.live_current q hq hqs hqa.2
      rw [hc] at hlive
      exact hlive
    · exact h.settled_timer

theorem wf_step (st : AppState) (e : Event) (h : WF st) : WF (stepEvent st e) := by
  cases e with
  | submit raw => exact wf_submitStep st raw h
  | settleFetch r o => exact wf_settleFetchStep st r o h
  | settleTimeout r => exact wf_settleTimeoutStep st r h
  | unmount => exact wf_unmountStep st h

theorem wf_foldl (evs : List Event) :
    ∀ st : AppState, WF st → WF (evs.foldl stepEvent st) := by
  induction evs with
  | nil => intro st h; exact h
  | cons e evs ih =>
    intro st h
    exact ih _ (wf_step st e h)

theorem wf_runEvents (evs : List Event) : WF (runEvents evs) :=
  wf_foldl evs AppState.init wf_init

/-! Supporting lemmas about settlement, suppression and liveness. -/

theorem find_settled_none (rs : List FetchRequest) (r : Nat) :
    (settleReq rs r).find? (fun q => q.id == r && !q.settled) = none := by
  rw [List.find?_eq_none]
  intro q hq
  rw [settleReq, List.mem_map] at hq
  obtain ⟨p, hp, rfl⟩ := hq
  by_cases hid : p.id = r
  · simp [hid]
  · simp [hid]

theorem settleFetchStep_of_none (st : AppState) (r : Nat) (o : FetchOutcome)
    (h : st.requests.find? (fun q => q.id == r && !q.settled) = none) :
    settleFetchStep st r o = st := by
  unfold settleFetchStep
  rw [h]

theorem settleTimeoutStep_of_none (st : AppState) (r : Nat)
    (h : st.requests.find? (fun q => q.id == r && !q.settled) = none) :
    settleTimeoutStep st r = st := by
  unfold settleTimeoutStep
  rw [h]

theorem visible_settleFetchStep_aborted (st : AppState) (r : Nat)
    (o : FetchOutcome) (ha : r ∈ st.aborted) :
    visible (settleFetchStep st r o) = visible st := by
  unfold settleFetchStep
  split
  · rfl
  · rw [if_pos ha]
    rfl

theorem visible_settleTimeoutStep_aborted (st : AppState) (r : Nat)
    (ha : r ∈ st.aborted) :
    visible (settleTimeoutStep st r) = visible st := by
  unfold settleTimeoutStep
  split
  · rfl
  · rw [if_pos ha]
    rfl

theorem settleReq_timer_off (rs : List FetchRequest) (r : Nat) :
    ∀ q ∈ settleReq rs r, q.id = r → q.timerActive = false := by
  intro q hq hid
  rw [settleReq, List.mem_map] at hq
  obtain ⟨p, hp, rfl⟩ := hq
  by_cases h1 : p.id = r
  · simp [h1]
  · simp [h1] at hid

theorem settleFetchStep_timer_off (st : AppState) (r : Nat) (o : FetchOutcome)
    (hwf : WF st) :
    ∀ q ∈ (settleFetchStep st r o).requests, q.id = r → q.timerActive = false := by
  unfold settleFetchStep
  split
  · rename_i hf
    intro q hq hid
    rw [List.find?_eq_none] at hf
    have h2 := hf q hq
    simp [hid] at h2
    exact hwf.settled_timer q hq h2
  · split
    · exact settleReq_timer_off st.requests r
    · split
      · exact settleReq_timer_off st.requests r
      · exact settleReq_timer_off st.requests r

theorem settleTimeoutStep_timer_off (st : AppState) (r : Nat) (hwf : WF st) :
    ∀ q ∈ (settleTimeoutStep st r).requests, q.id = r → q.timerActive = false := by
  unfold settleTimeoutStep
  split
  · rename_i hf
    intro q hq hid
    rw [List.find?_eq_none] at hf
    have h2 := hf q hq
    simp [hid] at h2
    exact hwf.settled_timer q hq h2
  · split
    · exact settleReq_timer_off st.requests r
    · exact settleReq_timer_off st.requests r

theorem atMostOneLive_of_wf (st : AppState) (h : WF st) : AtMostOneLive st := by
  rintro p q ⟨hp, hps, hpa⟩ ⟨hq, hqs, hqa⟩
  have cp := h.live_current p hp hps hpa
  have cq := h.live_current q hq hqs hqa
  rw [cp] at cq
  injection cq with cq
  exact h.ids_inj p hp q hq cq

theorem classifyError_timeout (id : String) :
    classifyError id ⟨none, timeoutInternalMsg⟩ = timeoutUserMsg := by
  simp [classifyError]

/-! ## Claim theorems -/

/-- C1: for all non-negative arbitrary-precision integers `a` (available)
and `s` (staked) delivered as raw smallest-unit decimal strings, the
conversion parses them exactly and computes the `total` of the balance
record as the exact integer sum `a + s` in the smallest unit before any
formatting; the closed instance has `a + s` far beyond `2 ^ 63`, showing
that there is no precision loss outside 64-bit range. -/
theorem total_is_exact_sum :
    (∀ a s : Nat,
        fetchBalanceConvert (natDecStr a) (natDecStr s) =
          some { available := formatNearAmount a 4,
                 staked := formatNearAmount s 4,
                 total := formatNearAmount (a + s) 4 }) ∧
    2 ^ 63 < 10 ^ 25 + 10 ^ 25 ∧
    fetchBalanceConvert (natDecStr (10 ^ 25)) (natDecStr (10 ^ 25)) =
      some { available := "10.0000", staked := "10.0000", total := "20.0000" } := by
  refine ⟨?_, by norm_num, by decide⟩
  intro a s
  simp [fetchBalanceConvert, parseDec_natDecStr]

/-- C2: for identifier `alice.near` (which validates) with raw sub-query
results `available = 10^24` and `staked = 5 * 10^23` smallest units, the
produced record is exactly
`{available := "1.0000", staked := "0.5000", total := "1.5000"}` — all
three formatted with fixed 4-digit fractional precision. -/
theorem concrete_scenario_one_and_half :
    validateAccountId "alice.near" = none ∧
    fetchBalanceConvert "1000000000000000000000000" "500000000000000000000000" =
      some { available := "1.0000", staked := "0.5000", total := "1.5000" } :=
  ⟨by decide, by decide⟩

/-- C9: the two balance sub-queries are joined, not raced: both succeeding
yields the converted record, either failing fails the whole body with that
sub-query's error, and a record is produced only when both sub-queries
completed successfully. -/
theorem subqueries_join :
    (∀ (l : AccountBalance) (s : ActiveDelegatedStakeBalance),
        fetchPromiseBody (Except.ok l) (Except.ok s) =
          Except.ok (fetchBalanceConvert l.available s.total)) ∧
    (∀ (e : ErrorWithType) (s : Except ErrorWithType ActiveDelegatedStakeBalance),
        fetchPromiseBody (Except.error e) s = Except.error e) ∧
    (∀ (l : AccountBalance) (e : ErrorWithType),
        fetchPromiseBody (Except.ok l) (Except.error e) = Except.error e) ∧
    (∀ (l : Except ErrorWithType AccountBalance)
        (s : Except ErrorWithType ActiveDelegatedStakeBalance)
        (r : Option BalanceData),
        fetchPromiseBody l s = Except.ok r →
        ∃ lb sb, l = Except.ok lb ∧ s = Except.ok sb ∧
          r = fetchBalanceConvert lb.available sb.total) := by
  refine ⟨fun l s => rfl, fun e s => rfl, fun l e => rfl, ?_⟩
  intro l s r h
  cases l with
  | error e => simp [fetchPromiseBody] at h
  | ok lb =>
    cases s with
    | error e => simp [fetchPromiseBody] at h
    | ok sb =>
      refine ⟨lb, sb, rfl, rfl, ?_⟩
      simp only [fetchPromiseBody, Except.ok.injEq] at h
      exact h.symm

/-- Witness for C9: the join applied to two concrete fulfilled sub-query
results. -/
theorem subqueries_join_witness :
    fetchPromiseBody (Except.ok ⟨"1"⟩) (Except.ok ⟨"2"⟩) =
      Except.ok (fetchBalanceConvert "1" "2") ∧
    ∃ lb sb, (Except.ok (⟨"1"⟩ : AccountBalance) :
        Except ErrorWithType AccountBalance) = Except.ok lb ∧
      (Except.ok (⟨"2"⟩ : ActiveDelegatedStakeBalance) :
        Except ErrorWithType ActiveDelegatedStakeBalance) = Except.ok sb ∧
      fetchBalanceConvert "1" "2" = fetchBalanceConvert lb.available sb.total :=
  ⟨rfl, subqueries_join.2.2.2 (Except.ok ⟨"1"⟩) (Except.ok ⟨"2"⟩)
    (fetchBalanceConvert "1" "2") rfl⟩

/-- C6 counterexample: at a provider-exhaustion failure the classifier
produces "... The NEAR network may be experiencing issues ...", which is
not the exact message text quoted by the claim ("... The network may be
experiencing issues ..."). -/
theorem classifier_exhaustion_message_counterexample :
    classifyError "alice.near" ⟨none, "Exceeded 3 providers"⟩ =
      "All RPC providers failed. The NEAR network may be experiencing issues. Please try again later." ∧
    classifyError "alice.near" ⟨none, "Exceeded 3 providers"⟩ ≠
      "All RPC providers failed. The network may be experiencing issues. Please try again later." :=
  ⟨by decide, by decide⟩

/-- C6 (amended): an account-not-found failure is classified as
`Account "<identifier>" does not exist on NEAR mainnet.` with the submitted
identifier interpolated, a provider-exhaustion failure as "All RPC
providers failed. The NEAR network may be experiencing issues. Please try
again later.", and every failure reaching the classifier yields one of the
fixed set of messages, with a generic fallback. -/
theorem classifier_fixed_messages :
    (∀ (id : String) (e : ErrorWithType),
        e.type = some "AccountDoesNotExist" → e.message ≠ timeoutInternalMsg →
        classifyError id e = accountMissingMsg id) ∧
    (∀ (id : String) (e : ErrorWithType),
        strIncludes e.message "Exceeded 3 providers" = true →
        e.type ≠ some "AccountDoesNotExist" → e.message ≠ timeoutInternalMsg →
        classifyError id e = providersFailedMsg) ∧
    (∀ (id : String) (e : ErrorWithType),
        classifyError id e = timeoutUserMsg ∨
        classifyError id e = accountMissingMsg id ∨
        classifyError id e = providersFailedMsg ∨
        classifyError id e = networkErrorMsg ∨
        classifyError id e = "Error: " ++ e.message ∨
        classifyError id e = genericErrorMsg) := by
  refine ⟨?_, ?_, ?_⟩
  · intro id e h1 h2
    unfold classifyError
    rw [if_neg h2, if_pos h1]
  · intro id e h1 h2 h3
    unfold classifyError
    rw [if_neg h3, if_neg h2, if_pos (by simp [h1])]
  · intro id e
    unfold classifyError
    split
    · exact Or.inl rfl
    · split
      · exact Or.inr (Or.inl rfl)
      · split
        · exact Or.inr (Or.inr (Or.inl rfl))
        · split
          · exact Or.inr (Or.inr (Or.inr (Or.inl rfl)))
          · split
            · exact Or.inr (Or.inr (Or.inr (Or.inr (Or.inl rfl))))
            · exact Or.inr (Or.inr (Or.inr (Or.inr (Or.inr rfl))))

/-- Witness for the amended C6: the account-not-found mapping and the
provider-exhaustion mapping at concrete failures. -/
theorem classifier_fixed_messages_witness :
    classifyError "alice.near" ⟨some "AccountDoesNotExist", "does not exist"⟩ =
      accountMissingMsg "alice.near" ∧
    classifyError "alice.near" ⟨none, "Exceeded 3 providers to retry"⟩ =
      providersFailedMsg :=
  ⟨classifier_fixed_messages.1 "alice.near"
      ⟨some "AccountDoesNotExist", "does not exist"⟩ rfl (by decide),
   classifier_fixed_messages.2.1 "alice.near"
      ⟨none, "Exceeded 3 providers to retry"⟩ (by decide) (by decide) (by decide)⟩

/-- C10: any failure whose type is not `AccountDoesNotExist` and whose
message is not the exact internal timeout string is classified as the
all-providers-failed message whenever its message merely contains the
substring "Exceeded" — even when it is not a provider-exhaustion failure. -/
theorem exceeded_substring_classified_as_exhaustion :
    ∀ (id : String) (e : ErrorWithType),
      e.type ≠ some "AccountDoesNotExist" → e.message ≠ timeoutInternalMsg →
      strIncludes e.message "Exceeded" = true →
      classifyError id e = providersFailedMsg := by
  intro id e h1 h2 h3
  unfold classifyError
  rw [if_neg h2, if_neg h1, if_pos (by simp [h3])]

/-- Witness for C10: the message "Exceeded expectations" is no provider
failure, yet it is classified as provider exhaustion. -/
theorem exceeded_substring_witness :
    ((⟨none, "Exceeded expectations"⟩ : ErrorWithType).type ≠
      some "AccountDoesNotExist") ∧
    strIncludes "Exceeded expectations" "Exceeded" = true ∧
    classifyError "alice.near" ⟨none, "Exceeded expectations"⟩ =
      providersFailedMsg :=
  ⟨by decide, by decide,
   exceeded_substring_classified_as_exhaustion "alice.near"
     ⟨none, "Exceeded expectations"⟩ (by decide) (by decide) (by decide)⟩

/-- C3: the validator trims whitespace and returns valid exactly when the
trimmed string matches, case-insensitively, one of the three accepted
shapes; `0x` plus 40 hex characters is valid while 39 or 41 are not; an
empty trimmed string yields the please-enter message and any other
non-matching string the message enumerating the three shapes. -/
theorem validateAccountId_spec :
    (∀ s : String,
        validateAccountId s = none ↔
          ImplicitShape (strTrim s) ∨ NamedShape (strTrim s) ∨
            EthereumLikeShape (strTrim s)) ∧
    (∀ s : String, strTrim s = "" → validateAccountId s = some emptyInputMsg) ∧
    (∀ s : String, strTrim s ≠ "" → ¬ ImplicitShape (strTrim s) →
        ¬ NamedShape (strTrim s) → ¬ EthereumLikeShape (strTrim s) →
        validateAccountId s = some invalidInputMsg) ∧
    validateAccountId ("0x" ++ ⟨List.replicate 40 'a'⟩) = none ∧
    validateAccountId ("0x" ++ ⟨List.replicate 39 'a'⟩) = some invalidInputMsg ∧
    validateAccountId ("0x" ++ ⟨List.replicate 41 'a'⟩) = some invalidInputMsg := by
  refine ⟨?_, ?_, ?_, by decide, by decide, by decide⟩
  · intro s
    rw [← implicitAddressTest_iff, ← namedAddressTest_iff, ← ethereumLikeTest_iff]
    unfold validateAccountId
    by_cases he : strTrim s = ""
    · rw [if_pos he, he]
      constructor
      · intro h
        exact Option.noConfusion h
      · intro h
        exfalso
        revert h
        decide
    · rw [if_neg he]
      by_cases h1 : implicitAddressTest (strTrim s) = true
      · rw [if_pos h1]
        simp [h1]
      · rw [if_neg h1]
        by_cases h2 : namedAddressTest (strTrim s) = true
        · rw [if_pos h2]
          simp [h2]
        · rw [if_neg h2]
          by_cases h3 : ethereumLikeTest (strTrim s) = true
          · rw [if_pos h3]
            simp [h3]
          · rw [if_neg h3]
            simp [h1, h2, h3]
  · intro s h
    unfold validateAccountId
    rw [if_pos h]
  · intro s he h1 h2 h3
    have h1b : ¬ implicitAddressTest (strTrim s) = true :=
      fun hh => h1 ((implicitAddressTest_iff _).mp hh)
    have h2b : ¬ namedAddressTest (strTrim s) = true :=
      fun hh => h2 ((namedAddressTest_iff _).mp hh)
    have h3b : ¬ ethereumLikeTest (strTrim s) = true :=
      fun hh => h3 ((ethereumLikeTest_iff _).mp hh)
    unfold validateAccountId
    rw [if_neg he, if_neg h1b, if_neg h2b, if_neg h3b]

/-- Witness for C3: a padded named address in mixed case is valid, a blank
input yields the empty-input message, and a shape-less input yields the
enumerating message. -/
theorem validateAccountId_spec_witness :
    validateAccountId " alice.NEAR " = none ∧
    validateAccountId "   " = some emptyInputMsg ∧
    validateAccountId "not_a_valid_id!!" = some invalidInputMsg :=
  ⟨(validateAccountId_spec.1 " alice.NEAR ").mpr
      (Or.inr (Or.inl ⟨["alice"], "NEAR", by decide, by decide, by decide,
        Or.inl (by decide)⟩)),
   validateAccountId_spec.2.1 "   " (by decide),
   validateAccountId_spec.2.2.1 "not_a_valid_id!!" (by decide)
     (fun h => absurd ((implicitAddressTest_iff _).mpr h) (by decide))
     (fun h => absurd ((namedAddressTest_iff _).mpr h) (by decide))
     (fun h => absurd ((ethereumLikeTest_iff _).mpr h) (by decide))⟩

/-- C4: a valid new submission aborts the prior running request's
controller before installing the new live one; at most one request is live
in any reachable state; and a settlement of a request whose controller was
aborted leaves every externally-visible field — success data, error
message and the loading flag — unchanged. -/
theorem request_supersession :
    (∀ (evs : List Event) (raw : String) (p : Nat),
        validateAccountId raw = none → (runEvents evs).current = some p →
        p ∈ (stepEvent (runEvents evs) (Event.submit raw)).aborted ∧
        (stepEvent (runEvents evs) (Event.submit raw)).current =
          some (runEvents evs).nextId ∧
        (runEvents evs).nextId ∉
          (stepEvent (runEvents evs) (Event.submit raw)).aborted) ∧
    (∀ evs : List Event, AtMostOneLive (runEvents evs)) ∧
    (∀ (st : AppState) (r : Nat) (o : FetchOutcome), r ∈ st.aborted →
        visible (stepEvent st (Event.settleFetch r o)) = visible st) ∧
    (∀ (st : AppState) (r : Nat), r ∈ st.aborted →
        visible (stepEvent st (Event.settleTimeout r)) = visible st) := by
  refine ⟨?_, ?_, ?_, ?_⟩
  · intro evs raw p hv hc
    have hwf := wf_runEvents evs
    have hsub : stepEvent (runEvents evs) (Event.submit raw) =
        { runEvents evs with
          aborted := p :: (runEvents evs).aborted
          current := some (runEvents evs).nextId
          nextId := (runEvents evs).nextId + 1
          loading := true
          error := none
          balanceData := none
          fetchedAccountId := none
          requests := (runEvents evs).requests ++
            [⟨(runEvents evs).nextId, strTrim raw, false, true⟩] } := by
      show submitStep _ raw = _
      unfold submitStep
      rw [hv, hc]
    rw [hsub]
    refine ⟨List.mem_cons_self _ _, rfl, ?_⟩
    intro hmem
    rcases List.mem_cons.mp hmem with h1 | h1
    · have := hwf.current_lt p hc
      omega
    · have := hwf.aborted_lt _ h1
      omega
  · intro evs
    exact atMostOneLive_of_wf _ (wf_runEvents evs)
  · intro st r o ha
    exact visible_settleFetchStep_aborted st r o ha
  · intro st r ha
    exact visible_settleTimeoutStep_aborted st r ha

/-- Witness for C4: submitting `bob.near` while the request for
`alice.near` is running aborts controller 0, installs controller 1, and a
late settlement of the superseded request changes nothing visible. -/
theorem request_supersession_witness :
    validateAccountId "bob.near" = none ∧
    (runEvents [Event.submit "alice.near"]).current = some 0 ∧
    (0 ∈ (stepEvent (runEvents [Event.submit "alice.near"])
        (Event.submit "bob.near")).aborted ∧
      (stepEvent (runEvents [Event.submit "alice.near"])
          (Event.submit "bob.near")).current =
        some (runEvents [Event.submit "alice.near"]).nextId ∧
      (runEvents [Event.submit "alice.near"]).nextId ∉
        (stepEvent (runEvents [Event.submit "alice.near"])
          (Event.submit "bob.near")).aborted) ∧
    (0 ∈ (runEvents [Event.submit "alice.near", Event.submit "bob.near"]).aborted ∧
      visible (stepEvent
          (runEvents [Event.submit "alice.near", Event.submit "bob.near"])
          (Event.settleFetch 0
            (FetchOutcome.success ⟨"1.0000", "0.5000", "1.5000"⟩))) =
        visible (runEvents [Event.submit "alice.near", Event.submit "bob.near"])) :=
  ⟨by decide, by decide,
   request_supersession.1 [Event.submit "alice.near"] "bob.near" 0
     (by decide) (by decide),
   ⟨by decide,
    request_supersession.2.2.1
      (runEvents [Event.submit "alice.near", Event.submit "bob.near"]) 0
      (FetchOutcome.success ⟨"1.0000", "0.5000", "1.5000"⟩) (by decide)⟩⟩

/-- C5: when the timer of a pending, non-cancelled request fires, exactly
the message "Request timed out. The network may be slow. Please try again."
is surfaced, loading ends, the displayed balance is untouched — and the
late outcome of the underlying fetch, success or failure, is discarded as
a complete no-op.  The timeout window is 30000 ms. -/
theorem timeout_message_and_discard :
    (∀ (evs : List Event) (r : Nat) (q : FetchRequest),
        (runEvents evs).requests.find? (fun x => x.id == r && !x.settled) = some q →
        r ∉ (runEvents evs).aborted →
        (stepEvent (runEvents evs) (Event.settleTimeout r)).error =
          some timeoutUserMsg ∧
        (stepEvent (runEvents evs) (Event.settleTimeout r)).loading = false ∧
        (stepEvent (runEvents evs) (Event.settleTimeout r)).balanceData =
          (runEvents evs).balanceData ∧
        (stepEvent (runEvents evs) (Event.settleTimeout r)).fetchedAccountId =
          (runEvents evs).fetchedAccountId ∧
        (∀ o : FetchOutcome,
          stepEvent (stepEvent (runEvents evs) (Event.settleTimeout r))
              (Event.settleFetch r o) =
            stepEvent (runEvents evs) (Event.settleTimeout r))) ∧
    REQUEST_TIMEOUT = 30000 ∧
    timeoutUserMsg = "Request timed out. The network may be slow. Please try again." := by
  refine ⟨?_, rfl, rfl⟩
  intro evs r q hf ha
  have hstep : stepEvent (runEvents evs) (Event.settleTimeout r) =
      { runEvents evs with
        requests := settleReq (runEvents evs).requests r
        loading := false
        error := some (classifyError q.trimmedAccountId ⟨none, timeoutInternalMsg⟩) } := by
    show settleTimeoutStep (runEvents evs) r = _
    unfold settleTimeoutStep
    split
    · rename_i hnone
      rw [hf] at hnone
      exact Option.noConfusion hnone
    · rename_i q0 hsome
      rw [hf] at hsome
      injection hsome with hq0
      subst hq0
      rw [if_neg ha]
  rw [hstep]
  refine ⟨?_, rfl, rfl, rfl, ?_⟩
  · rw [classifyError_timeout]
  · intro o
    show settleFetchStep _ r o = _
    apply settleFetchStep_of_none
    exact find_settled_none _ r

/-- Witness for C5: the single running request for `alice.near` times out;
the timeout message is shown and a late success is fully discarded. -/
theorem timeout_message_and_discard_witness :
    (runEvents [Event.submit "alice.near"]).requests.find?
        (fun x => x.id == 0 && !x.settled) = some ⟨0, "alice.near", false, true⟩ ∧
    0 ∉ (runEvents [Event.submit "alice.near"]).aborted ∧
    (stepEvent (runEvents [Event.submit "alice.near"])
        (Event.settleTimeout 0)).error = some timeoutUserMsg :=
  ⟨by decide, by decide,
   (timeout_message_and_discard.1 [Event.submit "alice.near"] 0
      ⟨0, "alice.near", false, true⟩ (by decide) (by decide)).1⟩

/-- C7: tearing down the consumer while a request is running aborts its
controller without changing anything visible (the model's step functions
are total, so teardown cannot throw); every later settlement of the
cancelled request — fetch outcome or timer firing — changes nothing
visible, and after it the request's timeout timer is no longer pending. -/
theorem unmount_cancels_and_cleans :
    ∀ (evs : List Event) (p : Nat),
      (runEvents evs).current = some p →
      p ∈ (stepEvent (runEvents evs) Event.unmount).aborted ∧
      visible (stepEvent (runEvents evs) Event.unmount) = visible (runEvents evs) ∧
      (∀ o : FetchOutcome,
        visible (stepEvent (stepEvent (runEvents evs) Event.unmount)
            (Event.settleFetch p o)) =
          visible (stepEvent (runEvents evs) Event.unmount) ∧
        ∀ q ∈ (stepEvent (stepEvent (runEvents evs) Event.unmount)
            (Event.settleFetch p o)).requests, q.id = p → q.timerActive = false) ∧
      (visible (stepEvent (stepEvent (runEvents evs) Event.unmount)
            (Event.settleTimeout p)) =
          visible (stepEvent (runEvents evs) Event.unmount) ∧
        ∀ q ∈ (stepEvent (stepEvent (runEvents evs) Event.unmount)
            (Event.settleTimeout p)).requests, q.id = p → q.timerActive = false) := by
  intro evs p hc
  have hwf := wf_runEvents evs
  have hwf2 : WF (stepEvent (runEvents evs) Event.unmount) :=
    wf_step _ _ hwf
  have hmem : p ∈ (stepEvent (runEvents evs) Event.unmount).aborted := by
    show p ∈ (unmountStep _).aborted
    unfold unmountStep
    split
    · rename_i p1 heq
      rw [hc] at heq
      injection heq with heq
      subst heq
      exact List.mem_cons_self _ _
    · rename_i heq
      rw [hc] at heq
      exact Option.noConfusion heq
  refine ⟨hmem, ?_, ?_, ?_⟩
  · show visible (unmountStep _) = _
    unfold unmountStep
    split <;> rfl
  · intro o
    exact ⟨visible_settleFetchStep_aborted _ p o hmem,
      settleFetchStep_timer_off _ p o hwf2⟩
  · exact ⟨visible_settleTimeoutStep_aborted _ p hmem,
      settleTimeoutStep_timer_off _ p hwf2⟩

/-- Witness for C7: teardown while the request for `alice.near` runs. -/
theorem unmount_cancels_and_cleans_witness :
    (runEvents [Event.submit "alice.near"]).current = some 0 ∧
    0 ∈ (stepEvent (runEvents [Event.submit "alice.near"]) Event.unmount).aborted :=
  ⟨by decide,
   (unmount_cancels_and_cleans [Event.submit "alice.near"] 0 (by decide)).1⟩

/-- C8: submitting an input that fails validation sets only the validation
error message — the resulting state equals the old one with just the error
field replaced, so no request is created, no controller is aborted, and
loading, balance data and fetched identifier are untouched. -/
theorem invalid_submit_frame :
    ∀ (st : AppState) (raw msg : String),
      validateAccountId raw = some msg →
      stepEvent st (Event.submit raw) = { st with error := some msg } := by
  intro st raw msg h
  show submitStep st raw = _
  unfold submitStep
  rw [h]

/-- Witness for C8: submitting `not_a_valid_id!!` from the initial state
changes only the error message. -/
theorem invalid_submit_frame_witness :
    validateAccountId "not_a_valid_id!!" = some invalidInputMsg ∧
    stepEvent AppState.init (Event.submit "not_a_valid_id!!") =
      { AppState.init with error := some invalidInputMsg } :=
  ⟨by decide,
   invalid_submit_frame AppState.init "not_a_valid_id!!" invalidInputMsg (by decide)⟩

end NearBalanceChecker
